import Mathlib

/-!
Shallow embedding of the telecom-cart-api core: the in-memory
`SalesforceCartClient` (TTL store with lazy expiry and bounded sweep), the
pure cart record transforms (`src/models/cart.ts`), the `CartService`
orchestration, and the HMAC-signed rehydration token codec
(`src/lib/rehydration.ts`).

Modelling conventions:
* Instants and durations are integers (epoch milliseconds), matching
  `Date.now()` arithmetic.
* The JS `Map<string, Cart>` is an insertion-ordered association list:
  `set` replaces in place when the key exists and appends otherwise,
  `delete` removes the entry, iteration follows list order.
* Nondeterministic inputs of the code (`Date.now()` readings,
  `crypto.randomUUID()`) are explicit parameters.
-/

namespace TelecomCart

/-- A cart line, `CartItem` of `src/models/types.ts`. -/
structure CartItem where
  itemId : String
  sku : String
  quantity : Int
deriving DecidableEq

/-- Server-computed totals, `CartTotals` of `src/models/types.ts`. -/
structure CartTotals where
  subtotal : Int
  tax : Int
  total : Int
deriving DecidableEq

/-- Optional customer annotation, `CustomerInfo` of `src/models/types.ts`. -/
structure CustomerInfo where
  email : Option String
  firstName : Option String
  lastName : Option String
deriving DecidableEq

/-- A cart record, `Cart` of `src/models/types.ts`; `Date` fields are epoch
milliseconds. -/
structure Cart where
  id : String
  items : List CartItem
  totals : CartTotals
  customer : Option CustomerInfo
  createdAt : Int
  updatedAt : Int
  expiresAt : Int
deriving DecidableEq

/-! ## Pricing (`src/config/pricing.ts`) -/

/-- First-match association lookup (semantics of a JS record/`Map` read with
distinct keys). -/
def assocLookup (k : String) : List (String × Int) → Option Int
  | [] => none
  | (k', v) :: rest => if k' = k then some v else assocLookup k rest

/-- `MOCK_PRICES` of `src/config/pricing.ts`. -/
def MOCK_PRICES : List (String × Int) :=
  [("PLAN-5G-PLUS", 2500), ("PLAN-BASIC", 1500), ("ADDON-ROAM", 500), ("ADDON-DATA", 300)]

/-- `DEFAULT_PRICE` of `src/config/pricing.ts`. -/
def DEFAULT_PRICE : Int := 1000

/-- `getPrice`: mock price with fallback default. -/
def getPrice (sku : String) : Int :=
  (assocLookup sku MOCK_PRICES).getD DEFAULT_PRICE

/-- `Math.round(subtotal * TAX_RATE)` for the default rate `0.13`, computed on
exact rationals (round half away from zero is round half up on the
non-negative subtotals that arise; the same function is used by every caller,
which is all the claims depend on). -/
def taxOf (subtotal : Int) : Int :=
  (subtotal * 13 + 50) / 100

/-- `calculateTotals` of `src/models/cart.ts`. -/
def calculateTotals (items : List CartItem) : CartTotals :=
  let subtotal := items.foldl (fun s i => s + getPrice i.sku * i.quantity) 0
  ⟨subtotal, taxOf subtotal, subtotal + taxOf subtotal⟩

/-! ## Pure record transforms (`src/models/cart.ts`) -/

/-- `createCart` of `src/models/cart.ts`: fresh empty cart with a fresh TTL
window. -/
def createCart (id : String) (ttlMs : Int) (now : Int) : Cart :=
  ⟨id, [], ⟨0, 0, 0⟩, none, now, now, now + ttlMs⟩

/-- The line-list update inside `mergeItem`: the first line with the given
`sku` (found by `findIndex`) gets its quantity summed in place; if none
matches, a new line with the fresh server-assigned `itemId` is appended. -/
def mergeLines (fresh : String) (sku : String) (q : Int) : List CartItem → List CartItem
  | [] => [⟨fresh, sku, q⟩]
  | i :: rest =>
      if i.sku = sku then { i with quantity := i.quantity + q } :: rest
      else i :: mergeLines fresh sku q rest

/-- `mergeItem` of `src/models/cart.ts`; `fresh` is the `crypto.randomUUID()`
result and `now` the `new Date()` reading. -/
def mergeItem (fresh : String) (now : Int) (cart : Cart) (sku : String) (q : Int) : Cart :=
  let updatedItems := mergeLines fresh sku q cart.items
  { cart with items := updatedItems, totals := calculateTotals updatedItems, updatedAt := now }

/-- `removeItem` of `src/models/cart.ts`: filters out lines whose `itemId`
matches and recomputes totals. -/
def removeItem (now : Int) (cart : Cart) (itemId : String) : Cart :=
  let updatedItems := cart.items.filter (fun i => i.itemId ≠ itemId)
  { cart with items := updatedItems, totals := calculateTotals updatedItems, updatedAt := now }

/-! ## The store (`src/clients/salesforceCartClient.ts`) -/

/-- The `Map<string, Cart>` as an insertion-ordered association list. -/
abbrev Store := List (String × Cart)

/-- `Map.get`. -/
def storeGet (id : String) : Store → Option Cart
  | [] => none
  | (k, c) :: rest => if k = id then some c else storeGet id rest

/-- `Map.set`: replace in place when present (a JS `Map` keeps the original
insertion position), append otherwise. -/
def storeSet (id : String) (c : Cart) : Store → Store
  | [] => [(id, c)]
  | (k, v) :: rest => if k = id then (id, c) :: rest else (k, v) :: storeSet id c rest

/-- `Map.delete`. -/
def storeDelete (id : String) (s : Store) : Store :=
  s.filter (fun kv => kv.1 ≠ id)

/-- `isExpired`: `Date.now() > cart.expiresAt.getTime()`. -/
def isExpired (now : Int) (cart : Cart) : Bool :=
  decide (now > cart.expiresAt)

/-- `refreshTtl`: same record with `updatedAt = now` and
`expiresAt = now + ttl`. -/
def refreshTtl (ttlMs : Int) (now : Int) (cart : Cart) : Cart :=
  { cart with updatedAt := now, expiresAt := now + ttlMs }

/-- `SalesforceCartClient.create`: unconditional insert. -/
def clientCreate (s : Store) (cart : Cart) : Store × Cart :=
  (storeSet cart.id cart s, cart)

/-- `SalesforceCartClient.get`: lazy expiry then TTL refresh. Returns the new
store state and the result (`none` for absent). -/
def clientGet (ttlMs : Int) (now : Int) (s : Store) (id : String) : Store × Option Cart :=
  match storeGet id s with
  | none => (s, none)
  | some cart =>
      if isExpired now cart then (storeDelete id s, none)
      else
        let refreshed := refreshTtl ttlMs now cart
        (storeSet id refreshed s, some refreshed)

/-- The two `NotFoundError` messages thrown by `SalesforceCartClient.update`. -/
inductive NotFoundReason where
  | cartNotFound
  | cartExpired
deriving DecidableEq

/-- `SalesforceCartClient.update`: look up by `cart.id`; missing → error,
expired → delete and error, otherwise persist `refreshTtl cart`. -/
def clientUpdate (ttlMs : Int) (now : Int) (s : Store) (cart : Cart) :
    Store × Except NotFoundReason Cart :=
  match storeGet cart.id s with
  | none => (s, .error .cartNotFound)
  | some existing =>
      if isExpired now existing then (storeDelete cart.id s, .error .cartExpired)
      else
        let refreshed := refreshTtl ttlMs now cart
        (storeSet cart.id refreshed s, .ok refreshed)

/-! ## The bounded sweep (`SalesforceCartClient.sweep`)

The sweep iterates `this.carts.entries()` while deleting from the same map;
only deletions occur, so iterating the snapshot taken at sweep start is
equivalent. `clockE k` is the `Date.now()` reading used by the expiry check
of the `k`-th examined entry and `clockB k` the reading of the budget check
made after `k` entries have been scanned; `start` is the reading taken at
sweep start. -/

/-- One sweep run over the remaining snapshot `entries`, with `scanned`
entries already examined and `s` the live map. Returns the final map and the
total number of entries examined. -/
def sweepGo (limit : Nat) (budget : Int) (start : Int) (clockE clockB : Nat → Int) :
    List (String × Cart) → Store → Nat → Store × Nat
  | [], s, scanned => (s, scanned)
  | (id, cart) :: rest, s, scanned =>
      let s' := if isExpired (clockE scanned) cart then storeDelete id s else s
      let scanned' := scanned + 1
      if limit ≤ scanned' then (s', scanned')
      else if budget ≤ clockB scanned' - start then (s', scanned')
      else sweepGo limit budget start clockE clockB rest s' scanned'

/-- A single sweep run on store `s`. -/
def sweep (limit : Nat) (budget : Int) (start : Int) (clockE clockB : Nat → Int)
    (s : Store) : Store × Nat :=
  sweepGo limit budget start clockE clockB s s 0

/-! ## Rehydration token codec (`src/lib/rehydration.ts`)

The wire format of a token is
`base64url(JSON.stringify(payload)) ++ "." ++ base64url(hmacSha256(secret, encodedPayload))`.
`base64url` and `JSON.stringify`/`JSON.parse` form an injective
encode/decode pair on the values that occur (and the base64url alphabet
contains no `.`), so a token is modelled by the parse result of its payload
segment together with its signature segment; a string that does not split on
`.` into exactly two segments is the `badFormat` constructor, and a payload
segment whose bytes do not decode or parse is carried as `none`.
HMAC-SHA256 keyed by the secret is modelled as an arbitrary function `macJ`
from (parse result of the) payload segment to signature string — the code
relies only on it being a deterministic function of the secret and the
payload bytes, and every theorem below quantifies over `macJ`. -/

/-- A JSON value as produced by `JSON.parse` (numbers restricted to the
integers, which covers every value the code puts in a payload). -/
inductive Json where
  | null
  | bool (b : Bool)
  | num (n : Int)
  | str (s : String)
  | arr (elems : List Json)
  | obj (fields : List (String × Json))

/-- A rehydration token (see the section comment for the correspondence with
the wire string). -/
inductive Token where
  | badFormat (raw : String)
  | parts (payload : Option Json) (sig : String)

/-- JS property read `j.k` as performed on a `JSON.parse` result: reading a
property of `null` throws a `TypeError` (modelled as `Except.error`);
reading a missing property, or a property of a non-object primitive, yields
`undefined` (modelled as `none`); on objects, `JSON.parse` keeps the last
binding of a duplicated key. -/
def jsField (j : Json) (k : String) : Except Unit (Option Json) :=
  match j with
  | .null => .error ()
  | .obj fields => .ok (fields.foldl (fun acc kv => if kv.1 = k then some kv.2 else acc) none)
  | _ => .ok none

/-- The `TokenError` messages thrown by `verifyToken`. -/
inductive TokenErrorKind where
  | invalidFormat
  | signatureInvalid
  | payloadInvalid
  | payloadMalformed
  | expiredOrInvalidTimestamp
deriving DecidableEq

/-- A failure of `verifyToken`: a thrown `TokenError`, or the uncaught JS
`TypeError` raised by the structural check when the parsed payload is
`null`. -/
inductive VerifyFailure where
  | token (e : TokenErrorKind)
  | typeError
deriving DecidableEq

/-- What `verifyToken` returns: the parsed payload as the code reads it —
`iat` as a number, `items` as the raw parsed array, its elements NOT
validated any further. -/
structure VerifiedPayload where
  iat : Int
  items : List Json

/-- `verifyToken` of `src/lib/rehydration.ts`: split check, constant-time
signature comparison, payload decode, structural check (`typeof payload.iat
=== 'number'` and `Array.isArray(payload.items)`), then the age window
`0 ≤ now - iat ≤ maxAgeMs`. -/
def verifyToken (macJ : Option Json → String) (token : Token) (now : Int) (maxAgeMs : Int) :
    Except VerifyFailure VerifiedPayload :=
  match token with
  | .badFormat _ => .error (.token .invalidFormat)
  | .parts payload sig =>
      if sig ≠ macJ payload then .error (.token .signatureInvalid)
      else
        match payload with
        | none => .error (.token .payloadInvalid)
        | some j =>
            match jsField j "iat", jsField j "items" with
            | .error _, _ => .error .typeError
            | _, .error _ => .error .typeError
            | .ok fIat, .ok fItems =>
                match fIat, fItems with
                | some (.num iat), some (.arr items) =>
                    let age := now - iat
                    if age > maxAgeMs ∨ age < 0 then
                      .error (.token .expiredOrInvalidTimestamp)
                    else .ok ⟨iat, items⟩
                | _, _ => .error (.token .payloadMalformed)

/-- `generateToken` of `src/lib/rehydration.ts`, at the payload level: the
signature segment is the MAC of the encoded payload segment. -/
def generateToken (macJ : Option Json → String) (payload : Json) : Token :=
  .parts (some payload) (macJ (some payload))

/-- Serialization of a `{ sku, quantity }` pair object (the shape
`createRehydrationToken`'s callers build via `.map`). -/
def itemPairJson (p : String × Int) : Json :=
  .obj [("sku", .str p.1), ("quantity", .num p.2)]

/-- The payload object `{ iat: now, items: [...] }` built by
`createRehydrationToken` for a list of `(sku, quantity)` pairs. -/
def payloadJson (iat : Int) (items : List (String × Int)) : Json :=
  .obj [("iat", .num iat), ("items", .arr (items.map itemPairJson))]

/-- `createRehydrationToken` of `src/lib/rehydration.ts` applied to a list of
`(sku, quantity)` pairs; `now` is the `Date.now()` reading used for `iat`. -/
def createRehydrationToken (macJ : Option Json → String) (now : Int)
    (items : List (String × Int)) : Token :=
  generateToken macJ (payloadJson now items)

/-- Serialization of a full `CartItem` as `JSON.stringify` would emit it
(fields in declaration order `itemId`, `sku`, `quantity`): this is what ends
up in a payload when a caller passes raw `CartItem`s instead of reduced
pairs. -/
def cartItemFullJson (i : CartItem) : Json :=
  .obj [("itemId", .str i.itemId), ("sku", .str i.sku), ("quantity", .num i.quantity)]

/-- How `rehydrateCart` reads one element of a verified payload's `items`:
`item.sku` must be a string and `item.quantity` a number for the element to
denote a `(sku, quantity)` pair. -/
def readItemPair (j : Json) : Option (String × Int) :=
  match j with
  | .obj _ =>
      match jsField j "sku", jsField j "quantity" with
      | .ok (some (.str sku)), .ok (some (.num q)) => some (sku, q)
      | _, _ => none
  | _ => none

/-- Reads a whole `items` array back as `(sku, quantity)` pairs. -/
def readItemPairs : List Json → Option (List (String × Int))
  | [] => some []
  | j :: rest =>
      match readItemPair j, readItemPairs rest with
      | some p, some ps => some (p :: ps)
      | _, _ => none

/-- The code's structural check on a parsed payload, as a partial reading:
`some (iat, items)` when `payload.iat` is a number and `payload.items` an
array, `none` otherwise (including the `null`-payload case where the
property reads throw). -/
def payloadFields (j : Json) : Option (Int × List Json) :=
  match jsField j "iat", jsField j "items" with
  | .ok (some (.num iat)), .ok (some (.arr items)) => some (iat, items)
  | _, _ => none

/-! ## Service orchestration (`src/services/cart.service.ts`) -/

/-- The `(sku, quantity)` projection of a cart's lines — what
`cart.items.map((item) => ({ sku: item.sku, quantity: item.quantity }))`
extracts. -/
def projItems (c : Cart) : List (String × Int) :=
  c.items.map (fun i => (i.sku, i.quantity))

/-- The token minted by `CartService.createCart`: the code passes the raw
`cart.items` (full `CartItem`s, `itemId` included) to
`createRehydrationToken`, so the payload serializes them in full. -/
def mintTokenOnCreate (macJ : Option Json → String) (now : Int) (cart : Cart) : Token :=
  generateToken macJ (.obj [("iat", .num now), ("items", .arr (cart.items.map cartItemFullJson))])

/-- The token minted by `CartService.addItem` and `CartService.rehydrateCart`:
items reduced to `(sku, quantity)` pairs before signing. -/
def mintTokenAfterMutation (macJ : Option Json → String) (now : Int) (cart : Cart) : Token :=
  createRehydrationToken macJ now (projItems cart)

/-- `CartService.removeItem`: `getCart` (throws `NotFoundError` when the
client returns absent), the pure `removeItem` transform, then
`client.update`; the service returns the transformed cart. -/
def serviceRemoveItem (ttlMs : Int) (now : Int) (s : Store) (cartId itemId : String) :
    Store × Except NotFoundReason Cart :=
  match clientGet ttlMs now s cartId with
  | (s', none) => (s', .error .cartNotFound)
  | (s', some cart) =>
      let updated := removeItem now cart itemId
      match clientUpdate ttlMs now s' updated with
      | (s'', .error e) => (s'', .error e)
      | (s'', .ok _) => (s'', .ok updated)

/-- The item-replay loop of `CartService.rehydrateCart`: starting from a
fresh cart it applies `mergeItem` once per `(sku, quantity)` entry in list
order. `fresh k` is the `crypto.randomUUID()` result and `tm k` the clock
reading consumed by the `k`-th merge. -/
def replayItems (fresh : Nat → String) (tm : Nat → Int) :
    Nat → Cart → List (String × Int) → Cart
  | _, c, [] => c
  | k, c, (sku, q) :: rest =>
      replayItems fresh tm (k + 1) (mergeItem (fresh k) (tm k) c sku q) rest

/-- `CartService.rehydrateCart` after token verification: create a fresh
empty cart (new id, fresh TTL window) and replay the verified items in list
order. -/
def rehydrateCartRecord (id : String) (ttlMs : Int) (t0 : Int)
    (fresh : Nat → String) (tm : Nat → Int) (items : List (String × Int)) : Cart :=
  replayItems fresh tm 0 (createCart id ttlMs t0) items

/-- The cart evolved by a live sequence of successful `CartService.addItem`
calls: each call merges the item into the current record and persists it via
`client.update`, which stores `refreshTtl` of the merged record (the record
the next call then operates on). -/
def liveAddSequence (ttlMs : Int) (fresh : Nat → String) (tm : Nat → Int) :
    Nat → Cart → List (String × Int) → Cart
  | _, c, [] => c
  | k, c, (sku, q) :: rest =>
      liveAddSequence ttlMs fresh tm (k + 1)
        (refreshTtl ttlMs (tm k) (mergeItem (fresh k) (tm k) c sku q)) rest

/-- A live build: create a fresh cart, then perform one `addItem` call per
`(sku, quantity)` entry in list order. -/
def liveBuildCart (id : String) (ttlMs : Int) (t0 : Int)
    (fresh : Nat → String) (tm : Nat → Int) (items : List (String × Int)) : Cart :=
  liveAddSequence ttlMs fresh tm 0 (createCart id ttlMs t0) items

/-- The `(sku, quantity)` projection of a line list. -/
def projLines (items : List CartItem) : List (String × Int) :=
  items.map (fun i => (i.sku, i.quantity))

/-- The action of `mergeLines` on the `(sku, quantity)` projection: bump the
first pair with the given SKU, or append. -/
def mergeProj (sku : String) (q : Int) : List (String × Int) → List (String × Int)
  | [] => [(sku, q)]
  | p :: rest => if p.1 = sku then (p.1, p.2 + q) :: rest else p :: mergeProj sku q rest

/-- `calculateTotals` as a function of the `(sku, quantity)` projection
(totals depend on nothing else). -/
def calcFromProj (ps : List (String × Int)) : CartTotals :=
  let subtotal := ps.foldl (fun s p => s + getPrice p.1 * p.2) 0
  ⟨subtotal, taxOf subtotal, subtotal + taxOf subtotal⟩

/-- An already-expired sample record (`expiresAt = 0`, observed at time 1). -/
def cExpired : Cart := ⟨"e", [], ⟨0, 0, 0⟩, none, 0, 0, 0⟩

/-- A concrete MAC instance used by closed examples (any deterministic
function is a valid instance of the MAC model). -/
def macConst : Option Json → String := fun _ => "m"

/-- A correctly signed payload whose `items` array holds a non-pair element:
`iat` is a number and `items` is an array, which is all the code checks. -/
def nonPairPayload : Json :=
  .obj [("iat", .num 0), ("items", .arr [.str "x"])]

/-- Two carts agreeing on their `(sku, quantity)` projection but differing in
`itemId`s, customer info, totals, id and timestamps. -/
def cVariantA : Cart :=
  ⟨"a", [⟨"X1", "PLAN-BASIC", 2⟩], ⟨9, 9, 9⟩, some ⟨some "a@b.co", none, none⟩, 0, 0, 50⟩

/-- See `cVariantA`. -/
def cVariantB : Cart :=
  ⟨"b", [⟨"Y9", "PLAN-BASIC", 2⟩], ⟨0, 0, 0⟩, none, 1, 2, 3⟩

/-- A sample live cart used by witnesses. -/
def cSample : Cart :=
  ⟨"c", [⟨"L1", "PLAN-BASIC", 2⟩], calculateTotals [⟨"L1", "PLAN-BASIC", 2⟩], none, 0, 0, 100⟩

/-- A two-line sample cart used by witnesses. -/
def cSample2 : Cart :=
  ⟨"d", [⟨"L1", "PLAN-BASIC", 2⟩, ⟨"L2", "ADDON-ROAM", 1⟩],
    calculateTotals [⟨"L1", "PLAN-BASIC", 2⟩, ⟨"L2", "ADDON-ROAM", 1⟩], none, 0, 0, 100⟩

/-! ## Store lemmas -/

theorem storeGet_storeDelete_self (id : String) (s : Store) :
    storeGet id (storeDelete id s) = none := by
  induction s with
  | nil => rfl
  | cons kv rest ih =>
      obtain ⟨k, c⟩ := kv
      by_cases h : k = id
      · simpa [storeDelete, h] using ih
      · simpa [storeDelete, storeGet, h] using ih

theorem storeGet_storeSet_self (id : String) (c : Cart) (s : Store) :
    storeGet id (storeSet id c s) = some c := by
  induction s with
  | nil => simp [storeSet, storeGet]
  | cons kv rest ih =>
      obtain ⟨k, v⟩ := kv
      by_cases h : k = id
      · simp [storeSet, h, storeGet]
      · simpa [storeSet, storeGet, h] using ih

theorem clientGet_missing {ttlMs now : Int} {s : Store} {id : String}
    (h : storeGet id s = none) : clientGet ttlMs now s id = (s, none) := by
  simp [clientGet, h]

theorem clientGet_expired {ttlMs now : Int} {s : Store} {id : String} {cart : Cart}
    (h : storeGet id s = some cart) (hexp : now > cart.expiresAt) :
    clientGet ttlMs now s id = (storeDelete id s, none) := by
  have he : isExpired now cart = true := by simp [isExpired, hexp]
  simp [clientGet, h, he]

theorem clientGet_live {ttlMs now : Int} {s : Store} {id : String} {cart : Cart}
    (h : storeGet id s = some cart) (hexp : ¬ now > cart.expiresAt) :
    clientGet ttlMs now s id =
      (storeSet id (refreshTtl ttlMs now cart) s, some (refreshTtl ttlMs now cart)) := by
  have he : isExpired now cart = false := by simp [isExpired]; omega
  simp [clientGet, h, he]

theorem clientUpdate_live {ttlMs now : Int} {s : Store} {cart ex : Cart}
    (h : storeGet cart.id s = some ex) (hexp : ¬ now > ex.expiresAt) :
    clientUpdate ttlMs now s cart =
      (storeSet cart.id (refreshTtl ttlMs now cart) s, .ok (refreshTtl ttlMs now cart)) := by
  have he : isExpired now ex = false := by simp [isExpired]; omega
  simp [clientUpdate, h, he]

/-- C1: `Get` on a missing or expired id deletes the entry if present and
returns absent; on a live entry it stores and returns the record with
`expiresAt` advanced to `now + ttl`; it never returns a record whose
`expiresAt` has passed, and an expired record is gone afterwards. -/
theorem clientGet_spec (ttlMs now : Int) (httl : 0 ≤ ttlMs) (s : Store) (id : String) :
    (storeGet id s = none → clientGet ttlMs now s id = (s, none)) ∧
    (∀ cart, storeGet id s = some cart → now > cart.expiresAt →
      clientGet ttlMs now s id = (storeDelete id s, none) ∧
      storeGet id (clientGet ttlMs now s id).1 = none) ∧
    (∀ cart, storeGet id s = some cart → ¬ now > cart.expiresAt →
      clientGet ttlMs now s id =
        (storeSet id (refreshTtl ttlMs now cart) s, some (refreshTtl ttlMs now cart)) ∧
      storeGet id (clientGet ttlMs now s id).1 = some (refreshTtl ttlMs now cart)) ∧
    (∀ s' r, clientGet ttlMs now s id = (s', some r) →
      r.expiresAt = now + ttlMs ∧ ¬ now > r.expiresAt) := by
  refine ⟨?_, ?_, ?_, ?_⟩
  · intro h
    simp [clientGet, h]
  · intro cart hget hexp
    have he : isExpired now cart = true := by simp [isExpired, hexp]
    refine ⟨by simp [clientGet, hget, he], ?_⟩
    simp [clientGet, hget, he, storeGet_storeDelete_self]
  · intro cart hget hexp
    have he : isExpired now cart = false := by simp [isExpired]; omega
    refine ⟨by simp [clientGet, hget, he], ?_⟩
    simp [clientGet, hget, he, storeGet_storeSet_self]
  · intro s' r h
    cases hget : storeGet id s with
    | none => simp [clientGet, hget] at h
    | some cart =>
        cases hexp : isExpired now cart with
        | true => simp [clientGet, hget, hexp] at h
        | false =>
          simp [clientGet, hget, hexp] at h
          have hr : r = refreshTtl ttlMs now cart := h.2.symm
          subst hr
          refine ⟨rfl, ?_⟩
          simp [refreshTtl]
          omega

/-- C1 witness: a live entry is refreshed and returned at a concrete input. -/
theorem clientGet_spec_witness :
    clientGet 10 5 [("c", cSample)] "c" =
      ([("c", refreshTtl 10 5 cSample)], some (refreshTtl 10 5 cSample)) := by
  have h := (clientGet_spec 10 5 (by decide) [("c", cSample)] "c").2.2.1 cSample
    (by decide) (by decide)
  exact h.1

/-- C4: `Update(record)` signals the distinguishable not-found error exactly
when the entry for `record.id` is missing or expired (deleting it when
expired); otherwise it persists the given record's fields with `expiresAt`
advanced to `now + ttl` and `updatedAt = now`, and returns the refreshed
record. -/
theorem clientUpdate_spec (ttlMs now : Int) (s : Store) (cart : Cart) :
    ((∃ e, (clientUpdate ttlMs now s cart).2 = .error e) ↔
      storeGet cart.id s = none ∨
      ∃ ex, storeGet cart.id s = some ex ∧ now > ex.expiresAt) ∧
    (storeGet cart.id s = none →
      clientUpdate ttlMs now s cart = (s, .error .cartNotFound)) ∧
    (∀ ex, storeGet cart.id s = some ex → now > ex.expiresAt →
      clientUpdate ttlMs now s cart = (storeDelete cart.id s, .error .cartExpired) ∧
      storeGet cart.id (clientUpdate ttlMs now s cart).1 = none) ∧
    (∀ ex, storeGet cart.id s = some ex → ¬ now > ex.expiresAt →
      clientUpdate ttlMs now s cart =
        (storeSet cart.id ({ cart with updatedAt := now, expiresAt := now + ttlMs }) s,
         .ok ({ cart with updatedAt := now, expiresAt := now + ttlMs })) ∧
      storeGet cart.id (clientUpdate ttlMs now s cart).1 =
        some ({ cart with updatedAt := now, expiresAt := now + ttlMs })) := by
  refine ⟨?_, ?_, ?_, ?_⟩
  · constructor
    · rintro ⟨e, he⟩
      cases hget : storeGet cart.id s with
      | none => exact Or.inl rfl
      | some ex =>
          cases hexp : isExpired now ex with
          | true => exact Or.inr ⟨ex, rfl, by simpa [isExpired] using hexp⟩
          | false => simp [clientUpdate, hget, hexp] at he
    · rintro (hnone | ⟨ex, hget, hexp⟩)
      · exact ⟨.cartNotFound, by simp [clientUpdate, hnone]⟩
      · have he : isExpired now ex = true := by simp [isExpired, hexp]
        exact ⟨.cartExpired, by simp [clientUpdate, hget, he]⟩
  · intro h
    simp [clientUpdate, h]
  · intro ex hget hexp
    have he : isExpired now ex = true := by simp [isExpired, hexp]
    refine ⟨by simp [clientUpdate, hget, he], ?_⟩
    simp [clientUpdate, hget, he, storeGet_storeDelete_self]
  · intro ex hget hexp
    have he : isExpired now ex = false := by simp [isExpired]; omega
    have href : refreshTtl ttlMs now cart =
        { cart with updatedAt := now, expiresAt := now + ttlMs } := rfl
    refine ⟨by simp [clientUpdate, hget, he, href], ?_⟩
    simp [clientUpdate, hget, he, href, storeGet_storeSet_self]

/-- C4 witness: updating a live entry persists the refreshed record; updating
a missing id errors. -/
theorem clientUpdate_spec_witness :
    clientUpdate 10 5 [("c", cSample)] cSample =
      ([("c", { cSample with updatedAt := 5, expiresAt := 15 })],
       .ok ({ cSample with updatedAt := 5, expiresAt := 15 })) ∧
    clientUpdate 10 5 [] cSample = ([], .error .cartNotFound) := by
  constructor
  · have h := (clientUpdate_spec 10 5 [("c", cSample)] cSample).2.2.2 cSample
      (by decide) (by decide)
    exact h.1
  · exact (clientUpdate_spec 10 5 [] cSample).2.1 (by decide)

/-! ## `mergeItem` lemmas -/

theorem mergeLines_of_mem (fresh sku : String) (q : Int) :
    ∀ items : List CartItem, (items.map CartItem.sku).Nodup →
      sku ∈ items.map CartItem.sku →
      mergeLines fresh sku q items =
        items.map (fun i => if i.sku = sku then { i with quantity := i.quantity + q } else i)
  | [], _, hmem => by simp at hmem
  | i :: rest, hnd, hmem => by
      obtain ⟨hhead, htail⟩ : (∀ x ∈ rest, ¬ x.sku = i.sku) ∧ (rest.map CartItem.sku).Nodup := by
        simpa using hnd
      by_cases h : i.sku = sku
      · have hrest : sku ∉ rest.map CartItem.sku := by
          intro hc
          rcases List.mem_map.mp hc with ⟨x, hx, hxs⟩
          exact hhead x hx (by rw [hxs, h])
        have hmap : rest.map
            (fun i => if i.sku = sku then { i with quantity := i.quantity + q } else i) = rest := by
          have : ∀ j ∈ rest,
              (if j.sku = sku then { j with quantity := j.quantity + q } else j) = j := by
            intro j hj
            have : j.sku ≠ sku := fun hc => hrest (by simpa [hc] using List.mem_map_of_mem CartItem.sku hj)
            simp [this]
          calc rest.map _ = rest.map id := List.map_congr_left this
            _ = rest := List.map_id rest
        simp [mergeLines, h, hmap]
      · have hmem' : sku ∈ rest.map CartItem.sku := by
          rcases (by simpa using hmem : sku = i.sku ∨ ∃ a ∈ rest, a.sku = sku) with h' | ⟨a, ha, has⟩
          · exact absurd h'.symm h
          · exact List.mem_map.mpr ⟨a, ha, has⟩
        simp [mergeLines, h, mergeLines_of_mem fresh sku q rest htail hmem']

theorem mergeLines_of_not_mem (fresh sku : String) (q : Int) :
    ∀ items : List CartItem, sku ∉ items.map CartItem.sku →
      mergeLines fresh sku q items = items ++ [⟨fresh, sku, q⟩]
  | [], _ => rfl
  | i :: rest, hmem => by
      have h : ¬ i.sku = sku := by
        intro hc
        exact hmem (by simp [hc])
      have hrest : sku ∉ rest.map CartItem.sku := by
        intro hc
        exact hmem (by simp [hc])
      simp [mergeLines, h, mergeLines_of_not_mem fresh sku q rest hrest]

/-- C5: on a cart with pairwise-distinct SKUs, `mergeItem` either bumps the
quantity of the unique existing line with that SKU (length and order
unchanged) or appends exactly one new line at the end; totals are recomputed
from the resulting lines and the at-most-one-line-per-SKU property is
preserved. -/
theorem mergeItem_spec (fresh : String) (now : Int) (cart : Cart) (sku : String) (q : Int)
    (hdist : (cart.items.map CartItem.sku).Nodup) :
    (sku ∈ cart.items.map CartItem.sku →
      (mergeItem fresh now cart sku q).items =
        cart.items.map
          (fun i => if i.sku = sku then { i with quantity := i.quantity + q } else i) ∧
      (mergeItem fresh now cart sku q).items.map CartItem.sku =
        cart.items.map CartItem.sku ∧
      (mergeItem fresh now cart sku q).items.length = cart.items.length) ∧
    (sku ∉ cart.items.map CartItem.sku →
      (mergeItem fresh now cart sku q).items = cart.items ++ [⟨fresh, sku, q⟩]) ∧
    (mergeItem fresh now cart sku q).totals =
      calculateTotals (mergeItem fresh now cart sku q).items ∧
    ((mergeItem fresh now cart sku q).items.map CartItem.sku).Nodup := by
  have hitems : (mergeItem fresh now cart sku q).items = mergeLines fresh sku q cart.items := rfl
  refine ⟨?_, ?_, rfl, ?_⟩
  · intro hmem
    have h := mergeLines_of_mem fresh sku q cart.items hdist hmem
    refine ⟨by rw [hitems, h], ?_, by rw [hitems, h, List.length_map]⟩
    rw [hitems, h, List.map_map]
    refine List.map_congr_left ?_
    intro i _
    by_cases hi : i.sku = sku <;> simp [hi]
  · intro hmem
    rw [hitems, mergeLines_of_not_mem fresh sku q cart.items hmem]
  · by_cases hmem : sku ∈ cart.items.map CartItem.sku
    · have h := (mergeLines_of_mem fresh sku q cart.items hdist hmem)
      have hskus : (mergeLines fresh sku q cart.items).map CartItem.sku =
          cart.items.map CartItem.sku := by
        rw [h, List.map_map]
        refine List.map_congr_left ?_
        intro i _
        by_cases hi : i.sku = sku <;> simp [hi]
      rw [hitems, hskus]
      exact hdist
    · rw [hitems, mergeLines_of_not_mem fresh sku q cart.items hmem]
      simp [List.nodup_append, hdist, hmem]

/-- C5 witness: adding SKU `PLAN-BASIC` qty 3 to a cart already holding it
bumps the single line to qty 5; adding a different SKU appends a new line. -/
theorem mergeItem_spec_witness :
    (mergeItem "L9" 7 cSample "PLAN-BASIC" 3).items = [⟨"L1", "PLAN-BASIC", 5⟩] ∧
    (mergeItem "L9" 7 cSample "ADDON-ROAM" 3).items =
      cSample.items ++ [⟨"L9", "ADDON-ROAM", 3⟩] := by
  constructor
  · have h := ((mergeItem_spec "L9" 7 cSample "PLAN-BASIC" 3 (by decide)).1 (by decide)).1
    rw [h]; rfl
  · exact (mergeItem_spec "L9" 7 cSample "ADDON-ROAM" 3 (by decide)).2.1 (by decide)

/-! ## `removeItem` / service-level removal -/

/-- C8 counterexample: removing a line id that no line of an existing live
cart has is silently ignored — the service returns success with the lines
unchanged, not a NotFound failure. -/
theorem serviceRemoveItem_missing_line_cex :
    (serviceRemoveItem 10 5 [("c", cSample)] "c" "zzz").2 =
      .ok (removeItem 5 (refreshTtl 10 5 cSample) "zzz") ∧
    (removeItem 5 (refreshTtl 10 5 cSample) "zzz").items = cSample.items := by
  exact ⟨rfl, rfl⟩

/-- C8 amended: the NotFound failure is surfaced when the *cart* is missing
or expired; on a live cart the operation succeeds whether or not the line id
occurs — a missing line id leaves the lines unchanged (silently ignored),
a present one removes exactly the matching line — and totals are recomputed
from the resulting lines. -/
theorem serviceRemoveItem_amended (ttlMs now : Int) (s : Store) (cid iid : String) :
    (storeGet cid s = none → (serviceRemoveItem ttlMs now s cid iid).2 = .error .cartNotFound) ∧
    (∀ cart, storeGet cid s = some cart → now > cart.expiresAt →
      (serviceRemoveItem ttlMs now s cid iid).2 = .error .cartNotFound) ∧
    (∀ cart, storeGet cid s = some cart → ¬ now > cart.expiresAt → cart.id = cid →
      0 ≤ ttlMs →
      (serviceRemoveItem ttlMs now s cid iid).2 =
        .ok (removeItem now (refreshTtl ttlMs now cart) iid)) ∧
    (∀ cart : Cart, iid ∉ cart.items.map CartItem.itemId →
      (removeItem now cart iid).items = cart.items) ∧
    (∀ (cart : Cart) (pre post : List CartItem) (line : CartItem),
      cart.items = pre ++ line :: post → line.itemId = iid →
      iid ∉ (pre ++ post).map CartItem.itemId →
      (removeItem now cart iid).items = pre ++ post) ∧
    (∀ cart : Cart, (removeItem now cart iid).totals =
      calculateTotals (removeItem now cart iid).items) := by
  refine ⟨?_, ?_, ?_, ?_, ?_, fun _ => rfl⟩
  · intro h
    simp [serviceRemoveItem, clientGet_missing h]
  · intro cart hget hexp
    simp [serviceRemoveItem, clientGet_expired hget hexp]
  · intro cart hget hexp hid httl
    have h1 := @clientGet_live ttlMs now s cid cart hget hexp
    have hrid : (removeItem now (refreshTtl ttlMs now cart) iid).id = cid := by
      simpa [removeItem, refreshTtl] using hid
    have hget2 : storeGet (removeItem now (refreshTtl ttlMs now cart) iid).id
        (storeSet cid (refreshTtl ttlMs now cart) s) = some (refreshTtl ttlMs now cart) := by
      rw [hrid]
      exact storeGet_storeSet_self cid (refreshTtl ttlMs now cart) s
    have hexp2 : ¬ now > (refreshTtl ttlMs now cart).expiresAt := by
      simp [refreshTtl]; omega
    have h2 := @clientUpdate_live ttlMs now (storeSet cid (refreshTtl ttlMs now cart) s)
      (removeItem now (refreshTtl ttlMs now cart) iid) (refreshTtl ttlMs now cart) hget2 hexp2
    simp [serviceRemoveItem, h1, h2]
  · intro cart hmem
    have : ∀ i ∈ cart.items, (decide (i.itemId ≠ iid)) = true := by
      intro i hi
      have : i.itemId ≠ iid := fun hc =>
        hmem (by simpa [hc] using List.mem_map_of_mem CartItem.itemId hi)
      simpa using this
    simpa [removeItem] using List.filter_eq_self.mpr this
  · intro cart pre post line hsplit hline hmem
    have hpre : ∀ i ∈ pre, (!decide (i.itemId = iid)) = true := by
      intro i hi
      have hne : i.itemId ≠ iid := by
        intro hc
        refine hmem ?_
        rw [← hc]
        exact List.mem_map_of_mem CartItem.itemId (List.mem_append_left post hi)
      simpa using hne
    have hpost : ∀ i ∈ post, (!decide (i.itemId = iid)) = true := by
      intro i hi
      have hne : i.itemId ≠ iid := by
        intro hc
        refine hmem ?_
        rw [← hc]
        exact List.mem_map_of_mem CartItem.itemId (List.mem_append_right pre hi)
      simpa using hne
    have hl : (!decide (line.itemId = iid)) = false := by simp [hline]
    simp [removeItem, hsplit, List.filter_append, List.filter_eq_self.mpr hpre,
      List.filter_eq_self.mpr hpost, List.filter, hl]

/-- C8 amended witness: on a live cart, removing a present line id removes
exactly that line, and removing an absent one returns success with the lines
unchanged. -/
theorem serviceRemoveItem_amended_witness :
    (serviceRemoveItem 10 5 [("d", cSample2)] "d" "zzz").2 =
      .ok (removeItem 5 (refreshTtl 10 5 cSample2) "zzz") ∧
    (removeItem 5 (refreshTtl 10 5 cSample2) "L1").items = [⟨"L2", "ADDON-ROAM", 1⟩] := by
  constructor
  · exact (serviceRemoveItem_amended 10 5 [("d", cSample2)] "d" "zzz").2.2.1 cSample2
      (by decide) (by decide) (by decide) (by decide)
  · exact (serviceRemoveItem_amended 10 5 [("d", cSample2)] "d" "L1").2.2.2.2.1
      (refreshTtl 10 5 cSample2) [] [⟨"L2", "ADDON-ROAM", 1⟩] ⟨"L1", "PLAN-BASIC", 2⟩
      rfl rfl (by decide)

/-! ## Token codec lemmas -/

theorem jsField_ok {j : Json} (hnn : j ≠ .null) (k : String) :
    ∃ o, jsField j k = .ok o := by
  cases j with
  | null => exact absurd rfl hnn
  | obj fields => exact ⟨_, rfl⟩
  | bool b => exact ⟨none, rfl⟩
  | num n => exact ⟨none, rfl⟩
  | str s => exact ⟨none, rfl⟩
  | arr elems => exact ⟨none, rfl⟩

/-- A correctly signed token reduces `verifyToken` to the structural and age
checks on its payload. -/
theorem verifySigned_eq (macJ : Option Json → String) (j : Json) (now maxAge : Int) :
    verifyToken macJ (.parts (some j) (macJ (some j))) now maxAge =
      (match jsField j "iat", jsField j "items" with
      | .error _, _ => .error .typeError
      | _, .error _ => .error .typeError
      | .ok fIat, .ok fItems =>
          match fIat, fItems with
          | some (.num iat), some (.arr items) =>
              if now - iat > maxAge ∨ now - iat < 0 then
                .error (.token .expiredOrInvalidTimestamp)
              else .ok ⟨iat, items⟩
          | _, _ => .error (.token .payloadMalformed)) := by
  simp [verifyToken]

theorem jsField_payloadJson_iat (iat : Int) (items : List (String × Int)) :
    jsField (payloadJson iat items) "iat" = .ok (some (.num iat)) := rfl

theorem jsField_payloadJson_items (iat : Int) (items : List (String × Int)) :
    jsField (payloadJson iat items) "items" = .ok (some (.arr (items.map itemPairJson))) := rfl

theorem readItemPairs_map_itemPairJson (items : List (String × Int)) :
    readItemPairs (items.map itemPairJson) = some items := by
  induction items with
  | nil => rfl
  | cons p rest ih =>
      obtain ⟨sku, q⟩ := p
      simp [readItemPairs, ih]
      rfl

/-- C2: for any MAC instance, signing a `(sku, quantity)` list and verifying
at any instant whose age is non-negative and at most `maxAge` succeeds, and
the returned items read back as exactly the original list. -/
theorem token_roundtrip (macJ : Option Json → String) (items : List (String × Int))
    (iat now maxAge : Int) (h0 : 0 ≤ now - iat) (h1 : now - iat ≤ maxAge) :
    verifyToken macJ (createRehydrationToken macJ iat items) now maxAge =
      .ok ⟨iat, items.map itemPairJson⟩ ∧
    readItemPairs (items.map itemPairJson) = some items := by
  constructor
  · show verifyToken macJ (.parts (some (payloadJson iat items))
      (macJ (some (payloadJson iat items)))) now maxAge = _
    rw [verifySigned_eq, jsField_payloadJson_iat, jsField_payloadJson_items]
    simp only []
    rw [if_neg (by omega)]
  · exact readItemPairs_map_itemPairJson items

/-- C2 witness: a concrete round trip at age within the window. -/
theorem token_roundtrip_witness :
    verifyToken macConst (createRehydrationToken macConst 3 [("PLAN-BASIC", 2)]) 5 10 =
      .ok ⟨3, [("PLAN-BASIC", 2)].map itemPairJson⟩ ∧
    readItemPairs ([("PLAN-BASIC", 2)].map itemPairJson) = some [("PLAN-BASIC", 2)] :=
  token_roundtrip macConst [("PLAN-BASIC", 2)] 3 5 10 (by decide) (by decide)

/-- C7: for a correctly signed, structurally well-formed token, verification
at age exactly `maxAge` succeeds (for a non-negative `maxAge`), at age
`maxAge + 1` it fails with the expired-or-invalid-timestamp error, and a
future-dated `iat` (negative age) fails with that error regardless of
`maxAge`. -/
theorem token_age_boundary (macJ : Option Json → String) (j : Json) (iat : Int)
    (itemsJ : List Json)
    (hiat : jsField j "iat" = .ok (some (.num iat)))
    (hitems : jsField j "items" = .ok (some (.arr itemsJ)))
    (now maxAge : Int) :
    (0 ≤ maxAge → now - iat = maxAge →
      verifyToken macJ (.parts (some j) (macJ (some j))) now maxAge = .ok ⟨iat, itemsJ⟩) ∧
    (now - iat = maxAge + 1 →
      verifyToken macJ (.parts (some j) (macJ (some j))) now maxAge =
        .error (.token .expiredOrInvalidTimestamp)) ∧
    (now - iat < 0 → ∀ maxAge2 : Int,
      verifyToken macJ (.parts (some j) (macJ (some j))) now maxAge2 =
        .error (.token .expiredOrInvalidTimestamp)) := by
  refine ⟨?_, ?_, ?_⟩
  · intro hpos hage
    rw [verifySigned_eq, hiat, hitems]
    simp only []
    rw [if_neg (by omega)]
  · intro hage
    rw [verifySigned_eq, hiat, hitems]
    simp only []
    rw [if_pos (by omega)]
  · intro hage maxAge2
    rw [verifySigned_eq, hiat, hitems]
    simp only []
    rw [if_pos (by omega)]

/-- C7 witness: concrete boundary instances at `maxAge = 10`. -/
theorem token_age_boundary_witness :
    verifyToken macConst (.parts (some (payloadJson 0 [])) (macConst (some (payloadJson 0 []))))
      10 10 = .ok ⟨0, []⟩ ∧
    verifyToken macConst (.parts (some (payloadJson 0 [])) (macConst (some (payloadJson 0 []))))
      11 10 = .error (.token .expiredOrInvalidTimestamp) ∧
    verifyToken macConst (.parts (some (payloadJson 5 [])) (macConst (some (payloadJson 5 []))))
      4 10 = .error (.token .expiredOrInvalidTimestamp) := by
  refine ⟨?_, ?_, ?_⟩
  · exact (token_age_boundary macConst (payloadJson 0 []) 0 [] rfl rfl 10 10).1
      (by decide) (by decide)
  · exact (token_age_boundary macConst (payloadJson 0 []) 0 [] rfl rfl 11 10).2.1 (by decide)
  · exact (token_age_boundary macConst (payloadJson 5 []) 5 [] rfl rfl 4 10).2.2
      (by decide) 10

/-- C6 counterexample: a correctly signed token whose `items` array holds the
non-pair element `"x"` is accepted, and its items list is returned with the
non-pair element in it — the element-wise structural validation the claim
describes does not happen. -/
theorem verify_nonpair_items_cex :
    verifyToken macConst (.parts (some nonPairPayload) (macConst (some nonPairPayload)))
      0 100 = .ok ⟨0, [.str "x"]⟩ ∧
    readItemPair (.str "x") = none :=
  ⟨rfl, rfl⟩

/-- C6 amended: for a correctly signed token whose payload decodes to a
non-`null` value, the payload-malformed TokenError is raised exactly when
`iat` is not a number or `items` is not an array; the elements of `items`
are not validated, so a returned items list need not consist of
`(sku, quantity)` pairs. -/
theorem verify_structural_check_amended (macJ : Option Json → String) (j : Json)
    (hnn : j ≠ .null) (now maxAge : Int) (hbad : payloadFields j = none) :
    verifyToken macJ (.parts (some j) (macJ (some j))) now maxAge =
      .error (.token .payloadMalformed) := by
  obtain ⟨o1, h1⟩ := jsField_ok hnn "iat"
  obtain ⟨o2, h2⟩ := jsField_ok hnn "items"
  rw [verifySigned_eq, h1, h2]
  simp only [payloadFields, h1, h2] at hbad
  rcases o1 with _ | v1
  · rcases o2 with _ | v2
    · rfl
    · cases v2 <;> rfl
  · rcases o2 with _ | v2
    · cases v1 <;> rfl
    · cases v1 <;> cases v2 <;> simp_all

/-- C6 amended witness: a signed token whose `items` field is a number is
rejected as payload-malformed. -/
theorem verify_structural_check_amended_witness :
    verifyToken macConst
      (.parts (some (.obj [("iat", .num 0), ("items", .num 7)]))
        (macConst (some (.obj [("iat", .num 0), ("items", .num 7)]))))
      0 100 = .error (.token .payloadMalformed) :=
  verify_structural_check_amended macConst (.obj [("iat", .num 0), ("items", .num 7)])
    (by intro h; cases h) 0 100 rfl

/-- C10: every token the service mints carries a payload of exactly `iat`
plus the `(sku, quantity)` reduction of the items — the cart-creation mint
serializes the (always empty) fresh item list, the post-mutation mints map
the lines to pairs — so two carts with the same `(sku, quantity)` sequence
yield identical tokens at the same instant under the same secret, whatever
their `itemId`s, customer info, or totals. -/
theorem minted_tokens_pairs_only (macJ : Option Json → String) (now t0 ttlMs : Int)
    (id : String) (c c1 c2 : Cart) :
    mintTokenOnCreate macJ now (createCart id ttlMs t0) =
      generateToken macJ (payloadJson now []) ∧
    mintTokenAfterMutation macJ now c =
      generateToken macJ (payloadJson now (projItems c)) ∧
    (projItems c1 = projItems c2 →
      mintTokenAfterMutation macJ now c1 = mintTokenAfterMutation macJ now c2) := by
  refine ⟨rfl, rfl, ?_⟩
  intro h
  unfold mintTokenAfterMutation createRehydrationToken
  rw [h]

/-- C10 witness: two carts differing in `itemId`s, customer info, totals, id
and timestamps but agreeing on `(sku, quantity)` yield the same token. -/
theorem minted_tokens_pairs_only_witness :
    mintTokenAfterMutation macConst 5 cVariantA = mintTokenAfterMutation macConst 5 cVariantB :=
  (minted_tokens_pairs_only macConst 5 0 0 "i" cVariantA cVariantA cVariantB).2.2 (by decide)

/-! ## Rehydration / live-sequence equivalence -/

theorem projLines_mergeLines (fresh sku : String) (q : Int) :
    ∀ items : List CartItem,
      projLines (mergeLines fresh sku q items) = mergeProj sku q (projLines items)
  | [] => rfl
  | i :: rest => by
      by_cases h : i.sku = sku
      · simp [mergeLines, projLines, mergeProj, h]
      · have ih := projLines_mergeLines fresh sku q rest
        simp [mergeLines, projLines, mergeProj, h] at ih ⊢
        exact ih

theorem calculateTotals_eq_calcFromProj (items : List CartItem) :
    calculateTotals items = calcFromProj (projLines items) := by
  simp [calculateTotals, calcFromProj, projLines, List.foldl_map]

theorem projLines_mergeItem (fresh : String) (now : Int) (cart : Cart) (sku : String) (q : Int) :
    projLines (mergeItem fresh now cart sku q).items = mergeProj sku q (projLines cart.items) :=
  projLines_mergeLines fresh sku q cart.items

theorem replay_live_agree (ttlMs : Int) (f1 f2 : Nat → String) (tm1 tm2 : Nat → Int) :
    ∀ (items : List (String × Int)) (k1 k2 : Nat) (c1 c2 : Cart),
      projLines c1.items = projLines c2.items → c1.totals = c2.totals →
      projLines (replayItems f1 tm1 k1 c1 items).items =
        projLines (liveAddSequence ttlMs f2 tm2 k2 c2 items).items ∧
      (replayItems f1 tm1 k1 c1 items).totals =
        (liveAddSequence ttlMs f2 tm2 k2 c2 items).totals
  | [], _, _, _, _, hproj, htot => ⟨hproj, htot⟩
  | (sku, q) :: rest, k1, k2, c1, c2, hproj, htot => by
      have hproj' : projLines (mergeItem (f1 k1) (tm1 k1) c1 sku q).items =
          projLines (refreshTtl ttlMs (tm2 k2) (mergeItem (f2 k2) (tm2 k2) c2 sku q)).items := by
        show projLines (mergeItem (f1 k1) (tm1 k1) c1 sku q).items =
          projLines (mergeItem (f2 k2) (tm2 k2) c2 sku q).items
        rw [projLines_mergeItem, projLines_mergeItem, hproj]
      have htot' : (mergeItem (f1 k1) (tm1 k1) c1 sku q).totals =
          (refreshTtl ttlMs (tm2 k2) (mergeItem (f2 k2) (tm2 k2) c2 sku q)).totals := by
        show calculateTotals (mergeLines (f1 k1) sku q c1.items) =
          calculateTotals (mergeLines (f2 k2) sku q c2.items)
        rw [calculateTotals_eq_calcFromProj, calculateTotals_eq_calcFromProj,
          projLines_mergeLines, projLines_mergeLines, hproj]
      exact replay_live_agree ttlMs f1 f2 tm1 tm2 rest (k1 + 1) (k2 + 1) _ _ hproj' htot'

/-- C3: the cart `rehydrateCart` builds from a verified items list — a fresh
empty cart with `mergeItem` applied once per `(sku, quantity)` entry in list
order — has the same line SKU sequence, the same quantities, and the same
recomputed totals as a cart built by an equivalent live sequence of
individual `addItem` calls with the same items in the same order (whatever
ids, fresh line ids and clock readings either run draws). -/
theorem rehydrate_equiv_live (id1 id2 : String) (ttl1 ttl2 : Int) (t0 t0' : Int)
    (f1 f2 : Nat → String) (tm1 tm2 : Nat → Int) (items : List (String × Int)) :
    projLines (rehydrateCartRecord id1 ttl1 t0 f1 tm1 items).items =
      projLines (liveBuildCart id2 ttl2 t0' f2 tm2 items).items ∧
    (rehydrateCartRecord id1 ttl1 t0 f1 tm1 items).items.map CartItem.sku =
      (liveBuildCart id2 ttl2 t0' f2 tm2 items).items.map CartItem.sku ∧
    (rehydrateCartRecord id1 ttl1 t0 f1 tm1 items).totals =
      (liveBuildCart id2 ttl2 t0' f2 tm2 items).totals := by
  have h : projLines (rehydrateCartRecord id1 ttl1 t0 f1 tm1 items).items =
        projLines (liveBuildCart id2 ttl2 t0' f2 tm2 items).items ∧
      (rehydrateCartRecord id1 ttl1 t0 f1 tm1 items).totals =
        (liveBuildCart id2 ttl2 t0' f2 tm2 items).totals :=
    replay_live_agree ttl2 f1 f2 tm1 tm2 items 0 0
      (createCart id1 ttl1 t0) (createCart id2 ttl2 t0') rfl rfl
  refine ⟨h.1, ?_, h.2⟩
  have hsku : ∀ its : List CartItem, its.map CartItem.sku = (projLines its).map Prod.fst := by
    intro its
    simp [projLines, List.map_map]
  rw [hsku, hsku, h.1]

/-! ## Bounded sweep -/

theorem storeGet_storeDelete_of_none {id id' : String} {s : Store}
    (h : storeGet id s = none) : storeGet id (storeDelete id' s) = none := by
  induction s with
  | nil => rfl
  | cons kv rest ih =>
      obtain ⟨k, c⟩ := kv
      by_cases hk : k = id
      · simp [storeGet, hk] at h
      · have h' : storeGet id rest = none := by simpa [storeGet, hk] using h
        by_cases hk' : k = id'
        · simpa [storeDelete, hk'] using ih h'
        · simpa [storeDelete, storeGet, hk, hk'] using ih h'

theorem sweepGo_lookup_none (limit : Nat) (budget start : Int) (cE cB : Nat → Int) :
    ∀ (entries : List (String × Cart)) (s : Store) (n : Nat) (id : String),
      storeGet id s = none →
      storeGet id (sweepGo limit budget start cE cB entries s n).1 = none
  | [], s, n, id, h => h
  | (eid, cart) :: rest, s, n, id, h => by
      have h' : storeGet id (if isExpired (cE n) cart then storeDelete eid s else s) = none := by
        by_cases he : isExpired (cE n) cart
        · simpa [he] using storeGet_storeDelete_of_none h
        · simpa [he] using h
      simp only [sweepGo]
      by_cases hb1 : limit ≤ n + 1
      · simpa [hb1] using h'
      · by_cases hb2 : budget ≤ cB (n + 1) - start
        · simpa [hb1, hb2] using h'
        · simpa [hb1, hb2] using
            sweepGo_lookup_none limit budget start cE cB rest _ (n + 1) id h'

theorem sweepGo_count (limit : Nat) (budget start : Int) (cE cB : Nat → Int) :
    ∀ (entries : List (String × Cart)) (s : Store) (n : Nat),
      (sweepGo limit budget start cE cB entries s n).2 ≤ max limit (n + 1) ∨
      (sweepGo limit budget start cE cB entries s n).2 = n
  | [], s, n => Or.inr rfl
  | (eid, cart) :: rest, s, n => by
      simp only [sweepGo]
      by_cases hb1 : limit ≤ n + 1
      · rw [if_pos hb1]
        exact Or.inl (Nat.le_max_right limit (n + 1))
      · rw [if_neg hb1]
        by_cases hb2 : budget ≤ cB (n + 1) - start
        · rw [if_pos hb2]
          exact Or.inl (Nat.le_max_right limit (n + 1))
        · rw [if_neg hb2]
          rcases sweepGo_count limit budget start cE cB rest
            (if isExpired (cE n) cart then storeDelete eid s else s) (n + 1) with h | h
          · refine Or.inl ?_
            have h1 : max limit (n + 2) = limit := Nat.max_eq_left (by omega)
            have h2 : max limit (n + 1) = limit := Nat.max_eq_left (by omega)
            rw [h2]
            rw [h1] at h
            exact h
          · refine Or.inl ?_
            rw [h]
            exact Nat.le_max_right limit (n + 1)

theorem sweepGo_deletes_expired (limit : Nat) (budget start : Int) (cE cB : Nat → Int) :
    ∀ (entries : List (String × Cart)) (s : Store) (n j : Nat) (hj : j < entries.length),
      n + j < (sweepGo limit budget start cE cB entries s n).2 →
      cE (n + j) > (entries.get ⟨j, hj⟩).2.expiresAt →
      storeGet (entries.get ⟨j, hj⟩).1 (sweepGo limit budget start cE cB entries s n).1 = none
  | [], _, _, j, hj => by simp at hj
  | (eid, cart) :: rest, s, n, 0, hj => by
      intro _ hexp
      have he : isExpired (cE n) cart = true := by
        simpa [isExpired] using hexp
      have hdel : storeGet eid (if isExpired (cE n) cart then storeDelete eid s else s) = none := by
        simp [he, storeGet_storeDelete_self]
      simp only [sweepGo]
      by_cases hb1 : limit ≤ n + 1
      · simpa [hb1] using hdel
      · by_cases hb2 : budget ≤ cB (n + 1) - start
        · simpa [hb1, hb2] using hdel
        · simpa [hb1, hb2] using
            sweepGo_lookup_none limit budget start cE cB rest _ (n + 1) eid hdel
  | (eid, cart) :: rest, s, n, j + 1, hj => by
      intro hlt hexp
      have hj' : j < rest.length := by simpa using hj
      simp only [sweepGo] at hlt ⊢
      by_cases hb1 : limit ≤ n + 1
      · rw [if_pos hb1] at hlt
        simp at hlt
      · by_cases hb2 : budget ≤ cB (n + 1) - start
        · rw [if_neg hb1, if_pos hb2] at hlt
          simp at hlt
        · rw [if_neg hb1, if_neg hb2] at hlt ⊢
          have := sweepGo_deletes_expired limit budget start cE cB rest
            (if isExpired (cE n) cart then storeDelete eid s else s) (n + 1) j hj'
            (by simpa [Nat.add_assoc, Nat.add_comm 1 j] using hlt)
            (by simpa [Nat.add_assoc, Nat.add_comm 1 j] using hexp)
          simpa using this

/-- C9 counterexample: with `sweepScanLimit = 0` a sweep over a one-entry
store still examines one entry — the scan-limit check runs only after the
counter is incremented — so "at most `sweepScanLimit` entries" fails at
limit 0. -/
theorem sweep_scan_limit_zero_cex :
    (sweep 0 50 0 (fun _ => 1) (fun _ => 0) [("e", cExpired)]).2 = 1 ∧
    ¬ ((sweep 0 50 0 (fun _ => 1) (fun _ => 0) [("e", cExpired)]).2 ≤ 0) := by
  decide

/-- C9 amended: a single sweep run examines at most `max sweepScanLimit 1`
entries — at most `sweepScanLimit` whenever the limit is at least 1 — no
matter how many entries the store holds or how many are expired, and every
examined entry whose `expiresAt` has passed at its examination instant is
deleted. -/
theorem sweep_bounded_amended (limit : Nat) (budget start : Int) (cE cB : Nat → Int)
    (s : Store) :
    (sweep limit budget start cE cB s).2 ≤ max limit 1 ∧
    (1 ≤ limit → (sweep limit budget start cE cB s).2 ≤ limit) ∧
    (∀ (j : Nat) (hj : j < s.length),
      j < (sweep limit budget start cE cB s).2 →
      cE j > (s.get ⟨j, hj⟩).2.expiresAt →
      storeGet (s.get ⟨j, hj⟩).1 (sweep limit budget start cE cB s).1 = none) := by
  have hcount := sweepGo_count limit budget start cE cB s s 0
  have hbound : (sweep limit budget start cE cB s).2 ≤ max limit 1 := by
    rcases hcount with h | h
    · simpa [sweep] using h
    · simp [sweep, h]
  refine ⟨hbound, fun h1 => le_trans hbound (by omega), ?_⟩
  intro j hj hlt hexp
  simpa [sweep] using
    sweepGo_deletes_expired limit budget start cE cB s s 0 j hj
      (by simpa [sweep] using hlt) (by simpa using hexp)

/-- C9 amended witness: with limit 2 the sweep examines at most 2 entries and
deletes the examined expired entry. -/
theorem sweep_bounded_amended_witness :
    (sweep 2 50 0 (fun _ => 1) (fun _ => 0) [("e", cExpired)]).2 ≤ 2 ∧
    storeGet "e" (sweep 2 50 0 (fun _ => 1) (fun _ => 0) [("e", cExpired)]).1 = none := by
  constructor
  · exact (sweep_bounded_amended 2 50 0 (fun _ => 1) (fun _ => 0) [("e", cExpired)]).2.1
      (by decide)
  · exact (sweep_bounded_amended 2 50 0 (fun _ => 1) (fun _ => 0) [("e", cExpired)]).2.2
      0 (by decide) (by decide) (by decide)

end TelecomCart
